import Mathlib

/-!
Verification of the Authentication & Session Persistence subsystem of the
gpustack-ui web application.

The repository ships the frontend authentication client
(`frontend/src/contexts/AuthContext.jsx`, present in compiled form in
`frontend/.next/server/pages/_app.js`) but not the backend Python services
(`backend/services/auth_service.py` and friends); for the backend only the
design documents, the environment templates and the test layout are in the
tree.  The backend components (Token Codec, Session Store, Identity
Verifier, Session Manager, Request Authenticator) are therefore modelled
from the specification, while the client-side state transitions are
embedded directly from the `AuthContext` source.
-/

namespace GpustackAuth

deriving instance DecidableEq for Except

/-- Token kind: access or refresh, as carried in the `type` claim. -/
inductive TokenKind
  | access
  | refresh
deriving DecidableEq, Repr

/-- Modelled from the spec: the claims of a self-contained token —
subject (user id), jti (session join key), token kind, issued-at, expiry. -/
structure Claims where
  sub : Nat
  jti : Nat
  kind : TokenKind
  iat : Nat
  exp : Nat
deriving DecidableEq, Repr

/-- Structural token failures returned by the Token Codec. -/
inductive TokenError
  | malformed
  | badSignature
  | expired
deriving DecidableEq, Repr

/-- The error taxonomy of §7 of the design. -/
inductive AuthError
  | invalidCredentials
  | providerUnavailable
  | tokenMalformed
  | tokenBadSignature
  | tokenExpired
  | sessionNotFound
  | userDeactivated
  | conflict
deriving DecidableEq, Repr

/-- Unary, self-delimiting encoding of a natural number into bits. -/
def encNat (n : Nat) : List Bool :=
  List.replicate n true ++ [false]

/-- Decoder for `encNat`; returns the number and the remaining bits. -/
def decodeNat : List Bool → Option (Nat × List Bool)
  | [] => none
  | false :: rest => some (0, rest)
  | true :: rest =>
    match decodeNat rest with
    | some (n, r) => some (n + 1, r)
    | none => none

/-- One bit distinguishing the two token kinds in the wire encoding. -/
def kindBit : TokenKind → Bool
  | .access => false
  | .refresh => true

/-- Inverse of `kindBit`. -/
def bitKind : Bool → TokenKind
  | false => .access
  | true => .refresh

/-- Injective serialisation of a claims record into a bit string. -/
def encodeClaims (c : Claims) : List Bool :=
  encNat c.sub ++ (encNat c.jti ++ (kindBit c.kind :: (encNat c.iat ++ encNat c.exp)))

/-- Deserialisation of a claims record; fails unless the whole input is
exactly one well-formed record. -/
def decodeClaims (bs : List Bool) : Option Claims :=
  match decodeNat bs with
  | none => none
  | some (sub, r1) =>
    match decodeNat r1 with
    | none => none
    | some (jti, r2) =>
      match r2 with
      | [] => none
      | kb :: r3 =>
        match decodeNat r3 with
        | none => none
        | some (iat, r4) =>
          match decodeNat r4 with
          | none => none
          | some (exp, r5) =>
            match r5 with
            | [] => some ⟨sub, jti, bitKind kb, iat, exp⟩
            | _ :: _ => none

/-- Modelled from the spec: the shared-secret message authentication code of
the Token Codec (HMAC in the real system), abstracted as a position-wise
keystream xor — enough to make signature checking and its tamper-detection
behaviour explicit.  `i` is the index of the first bit of the payload. -/
def macFrom (secret : Nat → Bool) : Nat → List Bool → List Bool
  | _, [] => []
  | i, b :: bs => xor b (secret i) :: macFrom secret (i + 1) bs

/-- The signature of a payload under the shared secret. -/
def mac (secret : Nat → Bool) (payload : List Bool) : List Bool :=
  macFrom secret 0 payload

/-- A signed token string: serialised claims followed by their signature. -/
def signToken (secret : Nat → Bool) (c : Claims) : List Bool :=
  encodeClaims c ++ mac secret (encodeClaims c)

/-- Modelled from the spec: `issue(user_id, jti, kind, ttl)` of the Token
Codec — encodes and signs claims with `iat = now` and `exp = iat + ttl`. -/
def issue (secret : Nat → Bool) (userId jti : Nat) (kind : TokenKind)
    (ttl now : Nat) : List Bool :=
  signToken secret ⟨userId, jti, kind, now, now + ttl⟩

/-- Modelled from the spec: `verify(token_string)` of the Token Codec —
checks the signature, decodes the claims, checks `exp > now`. -/
def verifyTok (secret : Nat → Bool) (now : Nat) (t : List Bool) :
    Except TokenError Claims :=
  if t.length % 2 ≠ 0 then .error .malformed
  else
    let n := t.length / 2
    let payload := t.take n
    let sig := t.drop n
    if sig = mac secret payload then
      match decodeClaims payload with
      | none => .error .malformed
      | some c => if c.exp > now then .ok c else .error .expired
    else .error .badSignature

/-- Flip the bit at position `i` of a bit string. -/
def flipAt (i : Nat) (t : List Bool) : List Bool :=
  t.set i (!(t.getD i false))

theorem decodeNat_enc (n : Nat) (rest : List Bool) :
    decodeNat (encNat n ++ rest) = some (n, rest) := by
  induction n with
  | zero => rfl
  | succ k ih =>
    have hstep : encNat (k + 1) ++ rest = true :: (encNat k ++ rest) := by
      simp [encNat, List.replicate_succ true k]
    rw [hstep, decodeNat, ih]

theorem decodeNat_enc_nil (n : Nat) : decodeNat (encNat n) = some (n, []) := by
  have := decodeNat_enc n []
  simpa using this

theorem decodeClaims_enc (c : Claims) :
    decodeClaims (encodeClaims c) = some c := by
  have hk : bitKind (kindBit c.kind) = c.kind := by cases c.kind <;> rfl
  simp [decodeClaims, encodeClaims, decodeNat_enc, decodeNat_enc_nil, hk]

theorem macFrom_length (secret : Nat → Bool) (i : Nat) (l : List Bool) :
    (macFrom secret i l).length = l.length := by
  induction l generalizing i with
  | nil => rfl
  | cons b bs ih => simp [macFrom, ih]

theorem mac_length (secret : Nat → Bool) (l : List Bool) :
    (mac secret l).length = l.length :=
  macFrom_length secret 0 l

theorem macFrom_inj (secret : Nat → Bool) (i : Nat) (l₁ l₂ : List Bool)
    (h : macFrom secret i l₁ = macFrom secret i l₂) : l₁ = l₂ := by
  induction l₁ generalizing i l₂ with
  | nil => cases l₂ with
    | nil => rfl
    | cons b bs => simp [macFrom] at h
  | cons b bs ih =>
    cases l₂ with
    | nil => simp [macFrom] at h
    | cons b2 bs2 =>
      simp only [macFrom, List.cons.injEq] at h
      have hb : b = b2 := by
        have := h.1
        revert this
        cases b <;> cases b2 <;> cases secret i <;> decide
      exact hb ▸ congrArg (b :: ·) (ih (i + 1) bs2 h.2)

theorem signToken_length (secret : Nat → Bool) (c : Claims) :
    (signToken secret c).length = 2 * (encodeClaims c).length := by
  simp [signToken, mac_length, Nat.two_mul]

theorem verifyTok_signToken (secret : Nat → Bool) (now : Nat) (c : Claims)
    (h : now < c.exp) :
    verifyTok secret now (signToken secret c) = .ok c := by
  have hlen : (signToken secret c).length = 2 * (encodeClaims c).length :=
    signToken_length secret c
  have hhalf : (signToken secret c).length / 2 = (encodeClaims c).length := by
    rw [hlen]; omega
  simp only [verifyTok, hlen, hhalf]
  have h2 : 2 * (encodeClaims c).length % 2 = 0 := by omega
  simp only [h2]
  have htake : (signToken secret c).take (encodeClaims c).length = encodeClaims c := by
    simp only [signToken]
    exact List.take_left (encodeClaims c) (mac secret (encodeClaims c))
  have hdrop : (signToken secret c).drop (encodeClaims c).length
      = mac secret (encodeClaims c) := by
    simp only [signToken]
    exact List.drop_left (encodeClaims c) (mac secret (encodeClaims c))
  simp only [signToken] at htake hdrop ⊢
  rw [htake, hdrop] at *
  simp [htake, hdrop, decodeClaims_enc, h]

theorem set_append_left (l₁ l₂ : List Bool) (i : Nat) (a : Bool)
    (h : i < l₁.length) : (l₁ ++ l₂).set i a = l₁.set i a ++ l₂ := by
  induction l₁ generalizing i with
  | nil => simp at h
  | cons b bs ih =>
    cases i with
    | zero => rfl
    | succ j =>
      simp only [List.cons_append, List.set, List.append_eq]
      rw [ih j (by simpa using h)]

theorem set_append_right (l₁ l₂ : List Bool) (i : Nat) (a : Bool)
    (h : l₁.length ≤ i) :
    (l₁ ++ l₂).set i a = l₁ ++ l₂.set (i - l₁.length) a := by
  induction l₁ generalizing i with
  | nil => simp
  | cons b bs ih =>
    cases i with
    | zero => simp at h
    | succ j =>
      simp only [List.cons_append, List.set, List.append_eq]
      rw [ih j (by simpa using h)]
      simp [Nat.succ_sub_succ]

theorem flipAt_length (i : Nat) (t : List Bool) :
    (flipAt i t).length = t.length := by
  simp [flipAt]

theorem flipAt_ne (t : List Bool) (i : Nat) (h : i < t.length) :
    flipAt i t ≠ t := by
  intro heq
  have hgd : (flipAt i t).getD i false = t.getD i false := by rw [heq]
  have hset : (flipAt i t).getD i false = !(t.getD i false) := by
    have hl : i < (flipAt i t).length := by rw [flipAt_length]; exact h
    rw [List.getD_eq_getElem _ _ hl]
    simp [flipAt]
  rw [hset] at hgd
  exact (Bool.not_ne_self _) hgd

theorem verifyTok_flip_signToken (secret : Nat → Bool) (c : Claims)
    (now i : Nat) (h : i < (signToken secret c).length) :
    verifyTok secret now (flipAt i (signToken secret c)) =
      .error .badSignature := by
  have hm : (mac secret (encodeClaims c)).length = (encodeClaims c).length :=
    mac_length secret (encodeClaims c)
  have hlen : (signToken secret c).length
      = (encodeClaims c).length + (encodeClaims c).length := by
    simp [signToken, hm]
  by_cases hi : i < (encodeClaims c).length
  · -- the flipped bit lives in the payload half
    have hset : flipAt i (signToken secret c)
        = flipAt i (encodeClaims c) ++ mac secret (encodeClaims c) := by
      simp only [flipAt, signToken]
      rw [List.getD_append _ _ _ _ hi]
      exact set_append_left _ _ _ _ hi
    have hplen : (flipAt i (encodeClaims c)).length = (encodeClaims c).length :=
      flipAt_length i (encodeClaims c)
    have hlen2 : (flipAt i (signToken secret c)).length
        = (encodeClaims c).length + (encodeClaims c).length := by
      rw [flipAt_length]; exact hlen
    have hhalf : (flipAt i (signToken secret c)).length / 2
        = (encodeClaims c).length := by rw [hlen2]; omega
    have heven : (flipAt i (signToken secret c)).length % 2 = 0 := by
      rw [hlen2]; omega
    have htake : (flipAt i (signToken secret c)).take (encodeClaims c).length
        = flipAt i (encodeClaims c) := by
      rw [hset]; exact List.take_left' hplen
    have hdrop : (flipAt i (signToken secret c)).drop (encodeClaims c).length
        = mac secret (encodeClaims c) := by
      rw [hset]; exact List.drop_left' hplen
    have hne : ¬ (mac secret (encodeClaims c)
        = mac secret (flipAt i (encodeClaims c))) := by
      intro heq
      exact flipAt_ne (encodeClaims c) i hi
        (macFrom_inj secret 0 _ _ heq.symm)
    simp only [verifyTok, heven, hhalf, htake, hdrop]
    simp [hne]
  · -- the flipped bit lives in the signature half
    have hi2 : (encodeClaims c).length ≤ i := Nat.le_of_not_lt hi
    have hj : i - (encodeClaims c).length < (mac secret (encodeClaims c)).length := by
      rw [hm]; omega
    have hset : flipAt i (signToken secret c)
        = encodeClaims c ++ flipAt (i - (encodeClaims c).length)
            (mac secret (encodeClaims c)) := by
      simp only [flipAt, signToken]
      rw [List.getD_append_right _ _ _ _ hi2]
      exact set_append_right _ _ _ _ hi2
    have hplen2 : (flipAt (i - (encodeClaims c).length)
        (mac secret (encodeClaims c))).length = (encodeClaims c).length := by
      rw [flipAt_length]; exact hm
    have hlen2 : (flipAt i (signToken secret c)).length
        = (encodeClaims c).length + (encodeClaims c).length := by
      rw [flipAt_length]; exact hlen
    have hhalf : (flipAt i (signToken secret c)).length / 2
        = (encodeClaims c).length := by rw [hlen2]; omega
    have heven : (flipAt i (signToken secret c)).length % 2 = 0 := by
      rw [hlen2]; omega
    have htake : (flipAt i (signToken secret c)).take (encodeClaims c).length
        = encodeClaims c := by
      rw [hset]; exact List.take_left' rfl
    have hdrop : (flipAt i (signToken secret c)).drop (encodeClaims c).length
        = flipAt (i - (encodeClaims c).length) (mac secret (encodeClaims c)) := by
      rw [hset]; exact List.drop_left' rfl
    have hne : ¬ (flipAt (i - (encodeClaims c).length)
        (mac secret (encodeClaims c)) = mac secret (encodeClaims c)) :=
      flipAt_ne _ _ hj
    simp only [verifyTok, heven, hhalf, htake, hdrop]
    simp [hne]

/-- Modelled from the spec: a persisted user record of the Credential Store
(`users` table of the design document's schema). -/
structure User where
  id : Nat
  username : String
  email : Option String
  passwordHash : Option String
  fullName : String
  isAdmin : Bool
  isActive : Bool
  preferences : List (String × String)
  createdAt : Nat
  updatedAt : Nat
  lastLogin : Option Nat
  gpustackId : Option Nat
deriving DecidableEq, Repr

/-- Modelled from the spec: a persisted session record of the Session Store
(`user_sessions` table), one row per issued token. -/
structure Session where
  jti : Nat
  userId : Nat
  kind : TokenKind
  expiresAt : Nat
  createdAt : Nat
  lastAccessed : Nat
  ip : String
  userAgent : String
deriving DecidableEq, Repr

/-- Modelled from the spec: the persisted state of the subsystem — the two
logical tables `users` and `sessions`. -/
structure ServerState where
  users : List User
  sessions : List Session
deriving DecidableEq, Repr

/-- Modelled from the spec: `find(jti)` of the Session Store. -/
def findSession (sessions : List Session) (jti : Nat) : Option Session :=
  sessions.find? (fun s => s.jti == jti)

/-- Modelled from the spec: `create(...)` of the Session Store; fails with
`Conflict` when the jti already exists. -/
def createSession (sessions : List Session) (s : Session) :
    Except AuthError (List Session) :=
  if sessions.any (fun r => r.jti == s.jti) then .error .conflict
  else .ok (s :: sessions)

/-- Modelled from the spec: `touch(jti)` of the Session Store — best-effort
update of the last-accessed time. -/
def touch (sessions : List Session) (jti now : Nat) : List Session :=
  sessions.map (fun s => if s.jti == jti then { s with lastAccessed := now } else s)

/-- Modelled from the spec: `revoke(jti)` of the Session Store — an
idempotent delete. -/
def revoke (sessions : List Session) (jti : Nat) : List Session :=
  sessions.filter (fun s => s.jti != jti)

/-- Modelled from the spec: `revoke_all_for_user(user_id)` of the Session
Store — idempotent delete of every session owned by the user. -/
def revoke_all_for_user (sessions : List Session) (userId : Nat) : List Session :=
  sessions.filter (fun s => s.userId != userId)

/-- Modelled from the spec: `purge_expired()` of the Session Store — deletes
exactly the sessions whose expiry has passed and reports how many rows
were removed. -/
def purge_expired (sessions : List Session) (now : Nat) : List Session × Nat :=
  let kept := sessions.filter (fun s => decide (now ≤ s.expiresAt))
  (kept, sessions.length - kept.length)

/-- Modelled from the spec: `list_active(user_id?)` of the Session Store. -/
def list_active (sessions : List Session) (userId : Option Nat) (now : Nat) :
    List Session :=
  sessions.filter (fun s =>
    decide (now ≤ s.expiresAt) &&
      match userId with
      | none => true
      | some uid => s.userId == uid)

/-- Modelled from the spec: the outcome of the external GPUStack identity
provider call — a success with the provider identity, a 4xx credential
rejection, or one of the unavailability failures (timeout, connection
refused, 5xx). -/
inductive ProviderResult
  | success (gpustackId : Nat) (fullName : String) (isAdmin : Bool)
  | rejected
  | timeout
  | connectionRefused
  | serverError (status : Nat)
deriving DecidableEq, Repr

/-- The provider failures that mean "identity backend is down". -/
def providerDown : ProviderResult → Bool
  | .timeout => true
  | .connectionRefused => true
  | .serverError _ => true
  | .success _ _ _ => false
  | .rejected => false

/-- Modelled from the spec: bcrypt password hashing, abstracted as an
injective tagging function. -/
def hashPassword (pw : String) : String :=
  "bcrypt$" ++ pw

/-- Modelled from the spec: constant-time comparison of a candidate password
against a stored hash. -/
def verifyPassword (pw hash : String) : Bool :=
  hashPassword pw == hash

/-- Look up a user by username in the Credential Store. -/
def findUserByName (users : List User) (username : String) : Option User :=
  users.find? (fun u => u.username == username)

/-- Whether a usable local fallback credential exists for a username: a
local user row carrying a password hash. -/
def localCredentialExists (users : List User) (username : String) : Bool :=
  match findUserByName users username with
  | some u => u.passwordHash.isSome
  | none => false

/-- Next fresh numeric user id. -/
def nextUserId (users : List User) : Nat :=
  (users.map (fun u => u.id)).foldr max 0 + 1

/-- Modelled from the spec: reconciliation of a provider-verified identity
into the Credential Store — upsert of a local User row marked as
externally sourced. -/
def upsertProviderUser (users : List User) (username : String)
    (gpustackId : Nat) (fullName : String) (isAdmin : Bool) (now : Nat) :
    List User × User :=
  match findUserByName users username with
  | some u =>
    let u2 : User :=
      { u with gpustackId := some gpustackId, fullName := fullName,
               updatedAt := now }
    (users.map (fun w => if w.id == u.id then u2 else w), u2)
  | none =>
    let u2 : User :=
      { id := nextUserId users, username := username, email := none,
        passwordHash := none, fullName := fullName, isAdmin := isAdmin,
        isActive := true, preferences := [], createdAt := now,
        updatedAt := now, lastLogin := none, gpustackId := some gpustackId }
    (u2 :: users, u2)

/-- Modelled from the spec: `authenticate(username, password)` of the
Identity Verifier — local verification first; with no usable local
credential, fall back to the external provider, upserting the provider
identity on success; provider unavailability is reported as the distinct
`ProviderUnavailable` error. -/
def authenticate (users : List User)
    (provider : String → String → ProviderResult)
    (username password : String) (now : Nat) :
    Except AuthError (List User × User) :=
  match findUserByName users username with
  | some u =>
    match u.passwordHash with
    | some h =>
      if verifyPassword password h then .ok (users, u)
      else .error .invalidCredentials
    | none =>
      match provider username password with
      | .success gid name adm =>
        .ok (upsertProviderUser users username gid name adm now)
      | .rejected => .error .invalidCredentials
      | .timeout => .error .providerUnavailable
      | .connectionRefused => .error .providerUnavailable
      | .serverError _ => .error .providerUnavailable
  | none =>
    match provider username password with
    | .success gid name adm =>
      .ok (upsertProviderUser users username gid name adm now)
    | .rejected => .error .invalidCredentials
    | .timeout => .error .providerUnavailable
    | .connectionRefused => .error .providerUnavailable
    | .serverError _ => .error .providerUnavailable

/-- Configured access-token lifetime in minutes
(`ACCESS_TOKEN_EXPIRE_MINUTES=30` in `.env.example`). -/
def accessTokenExpireMinutes : Nat := 30

/-- Configured refresh-token lifetime in days
(`REFRESH_TOKEN_EXPIRE_DAYS=7` in `.env.example`). -/
def refreshTokenExpireDays : Nat := 7

/-- Access-token TTL in seconds (30 minutes = 1800 s). -/
def accessTtlSeconds : Nat := accessTokenExpireMinutes * 60

/-- Refresh-token TTL in seconds (7 days). -/
def refreshTtlSeconds : Nat := refreshTokenExpireDays * 86400

/-- The JSON body returned by a successful login. -/
structure LoginResponse where
  access_token : List Bool
  refresh_token : List Bool
  token_type : String
  expires_in : Nat
  user : User
deriving DecidableEq, Repr

/-- The JSON body returned by a successful refresh. -/
structure RefreshResponse where
  access_token : List Bool
  refresh_token : List Bool
  expires_in : Nat
deriving DecidableEq, Repr

/-- Map a structural Token Codec failure into the §7 taxonomy. -/
def tokErrToAuth : TokenError → AuthError
  | .malformed => .tokenMalformed
  | .badSignature => .tokenBadSignature
  | .expired => .tokenExpired

/-- Modelled from the spec: the shared token-verification step of the
Session Manager — Token Codec `verify`, then Session Store `find(jti)`,
requiring a live session row of the matching kind owned by the token's
subject.  A cryptographically valid token without such a row fails with
`SessionNotFound`. -/
def verifySession (secret : Nat → Bool) (st : ServerState) (t : List Bool)
    (now : Nat) : Except AuthError (Claims × Session) :=
  match verifyTok secret now t with
  | .error e => .error (tokErrToAuth e)
  | .ok c =>
    match findSession st.sessions c.jti with
    | none => .error .sessionNotFound
    | some s =>
      if s.kind = c.kind ∧ s.userId = c.sub then .ok (c, s)
      else .error .sessionNotFound

/-- Record a successful login time on the authenticated user's row. -/
def recordLastLogin (users : List User) (userId now : Nat) : List User :=
  users.map (fun u => if u.id == userId then { u with lastLogin := some now } else u)

/-- Modelled from the spec: `login(username, password)` of the Session
Manager — authenticate, generate a fresh jti pair, persist two Session
rows, issue two signed tokens.  `accessJti` and `refreshJti` stand for the
two cryptographically random identifiers drawn at this call. -/
def login (secret : Nat → Bool) (st : ServerState)
    (provider : String → String → ProviderResult)
    (username password : String) (now accessJti refreshJti : Nat)
    (ip userAgent : String) :
    Except AuthError (ServerState × LoginResponse) :=
  match authenticate st.users provider username password now with
  | .error e => .error e
  | .ok (users2, u) =>
    let aSess : Session :=
      ⟨accessJti, u.id, .access, now + accessTtlSeconds, now, now, ip, userAgent⟩
    let rSess : Session :=
      ⟨refreshJti, u.id, .refresh, now + refreshTtlSeconds, now, now, ip, userAgent⟩
    match createSession st.sessions aSess with
    | .error e => .error e
    | .ok s1 =>
      match createSession s1 rSess with
      | .error e => .error e
      | .ok s2 =>
        .ok ({ users := recordLastLogin users2 u.id now, sessions := s2 },
             { access_token := issue secret u.id accessJti .access accessTtlSeconds now,
               refresh_token := issue secret u.id refreshJti .refresh refreshTtlSeconds now,
               token_type := "bearer",
               expires_in := accessTtlSeconds,
               user := u })

/-- Modelled from the spec: `refresh(refresh_token)` of the Session
Manager — structural verification, session liveness check of kind
`refresh`, then rotation: the old refresh session row is removed and a new
access/refresh pair is persisted and issued. -/
def refresh (secret : Nat → Bool) (st : ServerState) (t : List Bool)
    (now accessJti refreshJti : Nat) (ip userAgent : String) :
    Except AuthError (ServerState × RefreshResponse) :=
  match verifySession secret st t now with
  | .error e => .error e
  | .ok (c, _) =>
    if c.kind = TokenKind.refresh then
      let pruned := revoke st.sessions c.jti
      let aSess : Session :=
        ⟨accessJti, c.sub, .access, now + accessTtlSeconds, now, now, ip, userAgent⟩
      let rSess : Session :=
        ⟨refreshJti, c.sub, .refresh, now + refreshTtlSeconds, now, now, ip, userAgent⟩
      match createSession pruned aSess with
      | .error e => .error e
      | .ok s1 =>
        match createSession s1 rSess with
        | .error e => .error e
        | .ok s2 =>
          .ok ({ st with sessions := s2 },
               { access_token := issue secret c.sub accessJti .access accessTtlSeconds now,
                 refresh_token := issue secret c.sub refreshJti .refresh refreshTtlSeconds now,
                 expires_in := accessTtlSeconds })
    else .error .sessionNotFound

/-- The result of a logout call: always success. -/
inductive LogoutResult
  | success
deriving DecidableEq, Repr

/-- Modelled from the spec: `logout(token)` of the Session Manager — deletes
the corresponding session row when the token resolves to one and returns
success regardless of whether a matching session existed. -/
def logout (secret : Nat → Bool) (st : ServerState) (t : List Bool)
    (now : Nat) : ServerState × LogoutResult :=
  match verifyTok secret now t with
  | .error _ => (st, .success)
  | .ok c => ({ st with sessions := revoke st.sessions c.jti }, .success)

/-- Modelled from the spec: the revoke-all ("log out everywhere") action of
the Session Manager. -/
def revokeAllSessions (st : ServerState) (userId : Nat) : ServerState :=
  { st with sessions := revoke_all_for_user st.sessions userId }

/-- Modelled from the spec: `verify_and_resolve(token)` of the Request
Authenticator — Token Codec verification, session lookup requiring kind
`access`, best-effort `touch`, and a load of the owning User row rejecting
deactivated accounts. -/
def verify_and_resolve (secret : Nat → Bool) (st : ServerState)
    (t : List Bool) (now : Nat) : Except AuthError (ServerState × User) :=
  match verifySession secret st t now with
  | .error e => .error e
  | .ok (c, _) =>
    if c.kind = TokenKind.access then
      match st.users.find? (fun u => u.id == c.sub) with
      | none => .error .sessionNotFound
      | some u =>
        if u.isActive then
          .ok ({ st with sessions := touch st.sessions c.jti now }, u)
        else .error .userDeactivated
    else .error .sessionNotFound

/-- An HTTP-level error surfaced at the request boundary. -/
structure HttpError where
  status : Nat
  message : String
deriving DecidableEq, Repr

/-- Modelled from the spec: the §7 propagation policy — the HTTP status for
each taxonomy entry.  Structural and session-lookup failures collapse to
401; `ProviderUnavailable` is distinguished as 503 at the login endpoint;
a jti `Conflict` is a fatal server error. -/
def errorStatus : AuthError → Nat
  | .invalidCredentials => 401
  | .providerUnavailable => 503
  | .tokenMalformed => 401
  | .tokenBadSignature => 401
  | .tokenExpired => 401
  | .sessionNotFound => 401
  | .userDeactivated => 401
  | .conflict => 500

/-- Modelled from the spec: the request-boundary gate of the Request
Authenticator — extract the bearer token, run `verify_and_resolve`, and
collapse any failure to a generic HTTP error whose status comes from the
propagation policy. -/
def requireAuth (secret : Nat → Bool) (st : ServerState)
    (bearer : Option (List Bool)) (now : Nat) :
    Except HttpError (ServerState × User) :=
  match bearer with
  | none => .error ⟨401, "Unauthenticated"⟩
  | some t =>
    match verify_and_resolve secret st t now with
    | .error e => .error ⟨errorStatus e, "Unauthenticated"⟩
    | .ok r => .ok r

/-- Modelled from the spec: the seeded fallback admin row (username `admin`,
password `admin`, flagged admin and active). -/
def adminUser : User :=
  { id := 1, username := "admin", email := none,
    passwordHash := some (hashPassword "admin"), fullName := "Default Admin",
    isAdmin := true, isActive := true, preferences := [], createdAt := 0,
    updatedAt := 0, lastLogin := none, gpustackId := none }

/-- Modelled from the spec: the initial persisted state — the seeded admin
user and no sessions. -/
def initialState : ServerState :=
  { users := [adminUser], sessions := [] }

/-- Client-side authentication state held by the React `AuthProvider`
(`frontend/src/contexts/AuthContext.jsx`): the `token` and `user` React
states, the `authToken` localStorage entry, the axios default
`Authorization` header, and the `loading` flag. -/
structure ClientState where
  token : Option String
  user : Option String
  localStorageAuthToken : Option String
  axiosAuthHeader : Option String
  loading : Bool
deriving DecidableEq, Repr

/-- The payload of a successful `POST /api/auth/login` response consumed by
the client: `access_token` and `user`. -/
structure ClientLoginSuccess where
  access_token : String
  user : String
deriving DecidableEq, Repr

/-- Outcome of an awaited axios call: a response body, or a failure carrying
the optional `error.response?.data?.detail` field. -/
inductive ApiOutcome (α : Type)
  | ok (body : α)
  | failure (detail : Option String)
deriving DecidableEq, Repr

/-- The object returned by the client `login` function:
`\x7b success: true \x7d` or `\x7b success: false, error \x7d`. -/
structure ClientLoginResult where
  success : Bool
  error : Option String
deriving DecidableEq, Repr

/-- The `login` function of `AuthContext.jsx`: on a successful POST it
stores the token in localStorage, sets the `token` and `user` states and
the axios default Authorization header and returns success; on a failed
POST it returns `success: false` with the server's detail (or the generic
message); the `finally` block resets `loading` on both paths. -/
def clientLogin (st : ClientState) (resp : ApiOutcome ClientLoginSuccess) :
    ClientState × ClientLoginResult :=
  match resp with
  | .ok body =>
    ({ st with
        localStorageAuthToken := some body.access_token,
        token := some body.access_token,
        user := some body.user,
        axiosAuthHeader := some ("Bearer " ++ body.access_token),
        loading := false },
     { success := true, error := none })
  | .failure detail =>
    ({ st with loading := false },
     { success := false, error := some (detail.getD "Login failed") })

/-- The `logout` function of `AuthContext.jsx`: the API call's outcome is
caught and ignored; the `finally` block always removes the localStorage
entry, nulls `token` and `user`, and deletes the axios header. -/
def clientLogout (st : ClientState) : ClientState :=
  { st with
      localStorageAuthToken := none,
      token := none,
      user := none,
      axiosAuthHeader := none }

/-- The `refreshToken` function of `AuthContext.jsx`: on success the new
access token replaces the stored one and `true` is returned; on failure
the client session is cleared via `logout()` and `false` is returned. -/
def clientRefreshToken (st : ClientState) (resp : ApiOutcome String) :
    ClientState × Bool :=
  match resp with
  | .ok accessToken =>
    ({ st with
        localStorageAuthToken := some accessToken,
        token := some accessToken,
        axiosAuthHeader := some ("Bearer " ++ accessToken) },
     true)
  | .failure _ => (clientLogout st, false)

/-- The `isAuthenticated` value exposed by the provider:
`!!user && !!token`. -/
def isAuthenticated (st : ClientState) : Bool :=
  st.user.isSome && st.token.isSome

theorem verifyTok_signToken_eq (secret : Nat → Bool) (now : Nat) (c : Claims) :
    verifyTok secret now (signToken secret c)
      = if now < c.exp then .ok c else .error .expired := by
  have hlen : (signToken secret c).length = 2 * (encodeClaims c).length :=
    signToken_length secret c
  have hhalf : (signToken secret c).length / 2 = (encodeClaims c).length := by
    rw [hlen]; omega
  simp only [verifyTok, hlen, hhalf]
  have h2 : 2 * (encodeClaims c).length % 2 = 0 := by omega
  simp only [h2]
  have htake : (signToken secret c).take (encodeClaims c).length = encodeClaims c := by
    simp only [signToken]
    exact List.take_left (encodeClaims c) (mac secret (encodeClaims c))
  have hdrop : (signToken secret c).drop (encodeClaims c).length
      = mac secret (encodeClaims c) := by
    simp only [signToken]
    exact List.drop_left (encodeClaims c) (mac secret (encodeClaims c))
  simp only [signToken] at htake hdrop ⊢
  rw [htake, hdrop] at *
  simp [htake, hdrop, decodeClaims_enc]

theorem findSession_revoke_self (sessions : List Session) (j : Nat) :
    findSession (revoke sessions j) j = none := by
  apply List.find?_eq_none.mpr
  intro s hs
  have hmem := List.mem_filter.mp hs
  simp only [bne_iff_ne, ne_eq] at hmem
  simp only [beq_iff_eq]
  exact hmem.2

theorem findSession_mem (sessions : List Session) (j : Nat) (s : Session)
    (h : findSession sessions j = some s) : s ∈ sessions ∧ s.jti = j := by
  refine ⟨List.mem_of_find?_eq_some h, ?_⟩
  have := List.find?_some h
  simpa [beq_iff_eq] using this

/-- C1: at every state of the Session Manager, a token is accepted by the
session-verification step only if a Session row with its jti, of matching
kind and owning user, exists in the Session Store; a cryptographically
well-formed, unexpired token without such a row is rejected with
`SessionNotFound`; when such a row is found, the token is accepted; and
after `revoke_all_for_user(u)` every token whose subject is `u` — even
well-formed and unexpired — fails verification. -/
theorem session_record_liveness (secret : Nat → Bool) :
    (∀ (st : ServerState) (t : List Bool) (now : Nat) (c : Claims) (s : Session),
        verifySession secret st t now = .ok (c, s) →
        s ∈ st.sessions ∧ s.jti = c.jti ∧ s.kind = c.kind ∧ s.userId = c.sub)
  ∧ (∀ (st : ServerState) (c : Claims) (now : Nat),
        now < c.exp →
        (∀ s ∈ st.sessions, s.jti = c.jti → ¬(s.kind = c.kind ∧ s.userId = c.sub)) →
        verifySession secret st (signToken secret c) now = .error .sessionNotFound)
  ∧ (∀ (st : ServerState) (c : Claims) (now : Nat) (s : Session),
        findSession st.sessions c.jti = some s →
        s.kind = c.kind → s.userId = c.sub → now < c.exp →
        verifySession secret st (signToken secret c) now = .ok (c, s))
  ∧ (∀ (st : ServerState) (u : Nat) (c : Claims) (now : Nat),
        c.sub = u →
        (verifySession secret (revokeAllSessions st u) (signToken secret c) now).isOk
          = false) := by
  refine ⟨?_, ?_, ?_, ?_⟩
  · intro st t now c s h
    simp only [verifySession] at h
    cases hv : verifyTok secret now t with
    | error e =>
      rw [hv] at h
      simp only [] at h
      exact Except.noConfusion h
    | ok c2 =>
      rw [hv] at h
      simp only [] at h
      cases hf : findSession st.sessions c2.jti with
      | none =>
        rw [hf] at h
        simp only [] at h
        exact Except.noConfusion h
      | some s2 =>
        rw [hf] at h
        simp only [] at h
        by_cases hc : s2.kind = c2.kind ∧ s2.userId = c2.sub
        · rw [if_pos hc] at h
          cases h
          have hm := findSession_mem st.sessions c.jti s hf
          exact ⟨hm.1, hm.2, hc.1, hc.2⟩
        · rw [if_neg hc] at h; cases h
  · intro st c now hexp hnone
    simp only [verifySession, verifyTok_signToken_eq, if_pos hexp]
    cases hf : findSession st.sessions c.jti with
    | none => simp only []
    | some s =>
      have hm := findSession_mem st.sessions c.jti s hf
      simp only []
      rw [if_neg (hnone s hm.1 hm.2)]
  · intro st c now s hf hk hu hexp
    simp only [verifySession, verifyTok_signToken_eq, if_pos hexp, hf]
    rw [if_pos ⟨hk, hu⟩]
  · intro st u c now hsub
    simp only [verifySession, verifyTok_signToken_eq]
    by_cases hexp : now < c.exp
    · rw [if_pos hexp]
      simp only []
      cases hf : findSession (revokeAllSessions st u).sessions c.jti with
      | none => rfl
      | some s =>
        have hm := findSession_mem _ c.jti s hf
        have hmem := hm.1
        simp only [revokeAllSessions, revoke_all_for_user] at hmem
        have := (List.mem_filter.mp hmem).2
        simp only [bne_iff_ne, ne_eq] at this
        have hne : ¬(s.kind = c.kind ∧ s.userId = c.sub) := by
          intro hcc
          exact this (hsub ▸ hcc.2)
        simp only []
        rw [if_neg hne]
        rfl
    · rw [if_neg hexp]
      rfl

/-- Concrete instantiation of `session_record_liveness`: a matching session
row makes verification succeed, its absence makes it fail, and revoke-all
invalidates a well-formed unexpired token. -/
theorem session_record_liveness_check :
    (verifySession (fun i => i % 2 == 0)
        ⟨[], [⟨2, 1, .access, 9, 0, 0, "ip", "ua"⟩]⟩
        (signToken (fun i => i % 2 == 0) ⟨1, 2, .access, 0, 9⟩) 3
      = .ok (⟨1, 2, .access, 0, 9⟩, ⟨2, 1, .access, 9, 0, 0, "ip", "ua"⟩))
  ∧ (verifySession (fun i => i % 2 == 0) ⟨[], []⟩
        (signToken (fun i => i % 2 == 0) ⟨1, 2, .access, 0, 9⟩) 3
      = .error .sessionNotFound)
  ∧ ((verifySession (fun i => i % 2 == 0)
        (revokeAllSessions ⟨[], [⟨2, 1, .access, 9, 0, 0, "ip", "ua"⟩]⟩ 1)
        (signToken (fun i => i % 2 == 0) ⟨1, 2, .access, 0, 9⟩) 3).isOk = false) :=
  ⟨(session_record_liveness (fun i => i % 2 == 0)).2.2.1
      ⟨[], [⟨2, 1, .access, 9, 0, 0, "ip", "ua"⟩]⟩ ⟨1, 2, .access, 0, 9⟩ 3
      ⟨2, 1, .access, 9, 0, 0, "ip", "ua"⟩ (by decide) (by decide) (by decide)
      (by decide),
   (session_record_liveness (fun i => i % 2 == 0)).2.1
      ⟨[], []⟩ ⟨1, 2, .access, 0, 9⟩ 3 (by decide) (by intro s hs; cases hs),
   (session_record_liveness (fun i => i % 2 == 0)).2.2.2
      ⟨[], [⟨2, 1, .access, 9, 0, 0, "ip", "ua"⟩]⟩ 1 ⟨1, 2, .access, 0, 9⟩ 3
      (by decide)⟩

/-- C2: the Token Codec round-trip law — for any claims record whose expiry
is in the future, `verify` applied to the string `issue` produced for it
returns exactly those claims — and tamper detection: flipping any single
bit of an issued token string makes `verify` return `TokenBadSignature`,
at any verification time. -/
theorem token_codec_roundtrip_and_tamper (secret : Nat → Bool) :
    (∀ (c : Claims) (now : Nat), now < c.exp →
        verifyTok secret now (signToken secret c) = .ok c)
  ∧ (∀ (userId jti : Nat) (kind : TokenKind) (ttl now now2 : Nat),
        now2 < now + ttl →
        verifyTok secret now2 (issue secret userId jti kind ttl now)
          = .ok ⟨userId, jti, kind, now, now + ttl⟩)
  ∧ (∀ (userId jti : Nat) (kind : TokenKind) (ttl now now2 i : Nat),
        i < (issue secret userId jti kind ttl now).length →
        verifyTok secret now2 (flipAt i (issue secret userId jti kind ttl now))
          = .error .badSignature) := by
  refine ⟨?_, ?_, ?_⟩
  · intro c now h
    exact verifyTok_signToken secret now c h
  · intro userId jti kind ttl now now2 h
    exact verifyTok_signToken secret now2 ⟨userId, jti, kind, now, now + ttl⟩ h
  · intro userId jti kind ttl now now2 i h
    exact verifyTok_flip_signToken secret ⟨userId, jti, kind, now, now + ttl⟩ now2 i h

/-- Concrete instantiation of `token_codec_roundtrip_and_tamper`: a small
issued token round-trips, and flipping its first bit breaks the
signature. -/
theorem token_codec_roundtrip_and_tamper_check :
    (verifyTok (fun i => i % 2 == 0) 2
        (issue (fun i => i % 2 == 0) 1 2 TokenKind.access 5 0)
      = .ok ⟨1, 2, TokenKind.access, 0, 5⟩)
  ∧ (verifyTok (fun i => i % 2 == 0) 99
        (flipAt 0 (issue (fun i => i % 2 == 0) 1 2 TokenKind.access 5 0))
      = .error .badSignature) :=
  ⟨(token_codec_roundtrip_and_tamper (fun i => i % 2 == 0)).2.1
      1 2 TokenKind.access 5 0 2 (by decide),
   (token_codec_roundtrip_and_tamper (fun i => i % 2 == 0)).2.2
      1 2 TokenKind.access 5 0 99 0 (by decide)⟩

/-- C3: refresh rotation — whenever `refresh` succeeds on a live refresh
token (its session row present, fresh jtis drawn for the rotated pair),
the old refresh token's session row is removed, so presenting the old
refresh token a second time is rejected with `SessionNotFound` at any time
before its natural expiry. -/
theorem refresh_rotation_rejects_reuse (secret : Nat → Bool)
    (st : ServerState) (c : Claims) (s : Session)
    (now accessJti refreshJti : Nat) (ip userAgent : String)
    (hkind : c.kind = TokenKind.refresh)
    (hexp : now < c.exp)
    (hfind : findSession st.sessions c.jti = some s)
    (hsk : s.kind = c.kind) (hsu : s.userId = c.sub)
    (ha : (revoke st.sessions c.jti).any (fun x => x.jti == accessJti) = false)
    (hr : (revoke st.sessions c.jti).any (fun x => x.jti == refreshJti) = false)
    (har : refreshJti ≠ accessJti)
    (hrc : refreshJti ≠ c.jti) :
    ∃ st2 resp,
      refresh secret st (signToken secret c) now accessJti refreshJti ip userAgent
          = .ok (st2, resp)
      ∧ ∀ now2, now2 < c.exp →
          verifySession secret st2 (signToken secret c) now2
            = .error .sessionNotFound := by
  have hvs : verifySession secret st (signToken secret c) now = .ok (c, s) := by
    simp only [verifySession, verifyTok_signToken_eq, if_pos hexp, hfind]
    rw [if_pos ⟨hsk, hsu⟩]
  have hbeqA : ((⟨accessJti, c.sub, TokenKind.access, now + accessTtlSeconds,
      now, now, ip, userAgent⟩ : Session).jti == refreshJti) = false := by
    simp only [beq_eq_false_iff_ne, ne_eq]
    exact fun h => har h.symm
  refine ⟨⟨st.users, ⟨refreshJti, c.sub, .refresh, now + refreshTtlSeconds,
      now, now, ip, userAgent⟩ ::
      ⟨accessJti, c.sub, .access, now + accessTtlSeconds, now, now, ip,
        userAgent⟩ :: revoke st.sessions c.jti⟩,
    { access_token := issue secret c.sub accessJti .access accessTtlSeconds now,
      refresh_token := issue secret c.sub refreshJti .refresh refreshTtlSeconds now,
      expires_in := accessTtlSeconds }, ?_, ?_⟩
  · have hAR : (accessJti == refreshJti) = false :=
      beq_eq_false_iff_ne.mpr (fun h => har h.symm)
    simp only [refresh, hvs]
    rw [if_pos hkind]
    simp [createSession, ha, hr, hAR]
  · intro now2 h2
    simp only [verifySession, verifyTok_signToken_eq, if_pos h2]
    have hfr : ((⟨refreshJti, c.sub, TokenKind.refresh,
        now + refreshTtlSeconds, now, now, ip, userAgent⟩ : Session).jti
          == c.jti) = false := by
      simp only [beq_eq_false_iff_ne, ne_eq]
      exact hrc
    by_cases hac : accessJti = c.jti
    · have : findSession (⟨refreshJti, c.sub, .refresh, now + refreshTtlSeconds,
          now, now, ip, userAgent⟩ ::
          ⟨accessJti, c.sub, .access, now + accessTtlSeconds, now, now, ip,
            userAgent⟩ :: revoke st.sessions c.jti) c.jti
          = some ⟨accessJti, c.sub, .access, now + accessTtlSeconds, now, now,
              ip, userAgent⟩ := by
        simp only [findSession]
        rw [List.find?_cons_of_neg _ (by simp [hfr]),
          List.find?_cons_of_pos _ (by simp [hac])]
      rw [this]
      simp [hkind]
    · have : findSession (⟨refreshJti, c.sub, .refresh, now + refreshTtlSeconds,
          now, now, ip, userAgent⟩ ::
          ⟨accessJti, c.sub, .access, now + accessTtlSeconds, now, now, ip,
            userAgent⟩ :: revoke st.sessions c.jti) c.jti = none := by
        simp only [findSession]
        rw [List.find?_cons_of_neg _ (by simp [hfr]),
          List.find?_cons_of_neg _ (by simp [hac])]
        exact findSession_revoke_self st.sessions c.jti
      rw [this]

/-- Concrete instantiation of `refresh_rotation_rejects_reuse`: a small
state with one live refresh session; after rotation, replaying the old
refresh token fails with `SessionNotFound`. -/
theorem refresh_rotation_rejects_reuse_check :
    ∃ st2 resp,
      refresh (fun i => i % 2 == 0)
          ⟨[], [⟨1, 7, .refresh, 5, 0, 0, "ip", "ua"⟩]⟩
          (signToken (fun i => i % 2 == 0) ⟨7, 1, .refresh, 0, 5⟩) 0 2 3
          "ip" "ua"
        = .ok (st2, resp)
      ∧ ∀ now2, now2 < (⟨7, 1, .refresh, 0, 5⟩ : Claims).exp →
          verifySession (fun i => i % 2 == 0) st2
              (signToken (fun i => i % 2 == 0) ⟨7, 1, .refresh, 0, 5⟩) now2
            = .error .sessionNotFound :=
  refresh_rotation_rejects_reuse (fun i => i % 2 == 0)
    ⟨[], [⟨1, 7, .refresh, 5, 0, 0, "ip", "ua"⟩]⟩ ⟨7, 1, .refresh, 0, 5⟩
    ⟨1, 7, .refresh, 5, 0, 0, "ip", "ua"⟩ 0 2 3 "ip" "ua"
    (by decide) (by decide) (by decide) (by decide) (by decide) (by decide)
    (by decide) (by decide) (by decide)

/-- C4: degradation of the Identity Verifier — when no usable local
credential exists and the external provider call fails with a timeout,
connection refusal or 5xx, `authenticate` returns the distinct
`ProviderUnavailable` error (not `InvalidCredentials`); while an
already-provisioned local user with a correct password still authenticates
whatever the provider does. -/
theorem provider_unavailable_distinct :
    (∀ (users : List User) (provider : String → String → ProviderResult)
        (username password : String) (now : Nat),
        localCredentialExists users username = false →
        providerDown (provider username password) = true →
        authenticate users provider username password now
          = .error .providerUnavailable)
  ∧ (∀ (users : List User) (provider : String → String → ProviderResult)
        (username password : String) (now : Nat) (u : User) (ph : String),
        findUserByName users username = some u →
        u.passwordHash = some ph →
        verifyPassword password ph = true →
        authenticate users provider username password now = .ok (users, u))
  ∧ AuthError.providerUnavailable ≠ AuthError.invalidCredentials := by
  refine ⟨?_, ?_, by decide⟩
  · intro users provider username password now hloc hdown
    cases hfind : findUserByName users username with
    | none =>
      simp only [authenticate, hfind]
      cases hp : provider username password with
      | success gid name adm => rw [hp] at hdown; simp [providerDown] at hdown
      | rejected => rw [hp] at hdown; simp [providerDown] at hdown
      | timeout => rfl
      | connectionRefused => rfl
      | serverError code => rfl
    | some u =>
      have hnone : u.passwordHash = none := by
        simp only [localCredentialExists, hfind] at hloc
        exact Option.not_isSome_iff_eq_none.mp (by simp [hloc])
      simp only [authenticate, hfind, hnone]
      cases hp : provider username password with
      | success gid name adm => rw [hp] at hdown; simp [providerDown] at hdown
      | rejected => rw [hp] at hdown; simp [providerDown] at hdown
      | timeout => rfl
      | connectionRefused => rfl
      | serverError code => rfl
  · intro users provider username password now u ph hfind hph hvp
    simp only [authenticate, hfind, hph, hvp]
    rfl

/-- Concrete instantiation of `provider_unavailable_distinct`: with the
provider timing out, an unknown username gets `ProviderUnavailable`, while
the seeded admin still logs in locally. -/
theorem provider_unavailable_distinct_check :
    (authenticate [adminUser] (fun _ _ => ProviderResult.timeout) "bob" "pw" 0
      = .error .providerUnavailable)
  ∧ (authenticate [adminUser] (fun _ _ => ProviderResult.timeout)
        "admin" "admin" 0 = .ok ([adminUser], adminUser)) :=
  ⟨provider_unavailable_distinct.1 [adminUser]
      (fun _ _ => ProviderResult.timeout) "bob" "pw" 0 (by decide) (by decide),
   provider_unavailable_distinct.2.1 [adminUser]
      (fun _ _ => ProviderResult.timeout) "admin" "admin" 0 adminUser
      (hashPassword "admin") (by decide) (by decide) (by decide)⟩

theorem verifySession_error_status (secret : Nat → Bool) (st : ServerState)
    (t : List Bool) (now : Nat) (e : AuthError)
    (h : verifySession secret st t now = .error e) : errorStatus e = 401 := by
  simp only [verifySession] at h
  cases hv : verifyTok secret now t with
  | error te =>
    rw [hv] at h
    simp only [] at h
    cases h
    cases te <;> rfl
  | ok c =>
    rw [hv] at h
    simp only [] at h
    cases hf : findSession st.sessions c.jti with
    | none =>
      rw [hf] at h
      simp only [] at h
      cases h
      rfl
    | some s =>
      rw [hf] at h
      simp only [] at h
      by_cases hc : s.kind = c.kind ∧ s.userId = c.sub
      · rw [if_pos hc] at h
        exact Except.noConfusion h
      · rw [if_neg hc] at h
        cases h
        rfl

/-- C5: the request boundary — whatever step of request authentication
fails (malformed token, bad signature, expiry, revoked or absent session,
deactivated user), the propagation policy yields status 401 and the
Request Authenticator answers the single generic `Unauthenticated`
error. -/
theorem request_boundary_collapses_to_401 (secret : Nat → Bool)
    (st : ServerState) (t : List Bool) (now : Nat) (e : AuthError)
    (h : verify_and_resolve secret st t now = .error e) :
    errorStatus e = 401
    ∧ requireAuth secret st (some t) now = .error ⟨401, "Unauthenticated"⟩ := by
  have h401 : errorStatus e = 401 := by
    simp only [verify_and_resolve] at h
    cases hv : verifySession secret st t now with
    | error e2 =>
      rw [hv] at h
      simp only [] at h
      injection h with he
      subst he
      exact verifySession_error_status secret st t now e2 hv
    | ok p =>
      rw [hv] at h
      simp only [] at h
      by_cases hk : p.1.kind = TokenKind.access
      · rw [if_pos hk] at h
        cases hf : st.users.find? (fun u => u.id == p.1.sub) with
        | none =>
          rw [hf] at h
          simp only [] at h
          cases h
          rfl
        | some u =>
          rw [hf] at h
          simp only [] at h
          by_cases hact : u.isActive = true
          · rw [if_pos hact] at h
            exact Except.noConfusion h
          · rw [if_neg hact] at h
            cases h
            rfl
      · rw [if_neg hk] at h
        cases h
        rfl
  refine ⟨h401, ?_⟩
  simp only [requireAuth, h]
  rw [h401]

/-- Concrete instantiation of `request_boundary_collapses_to_401`: an empty
bearer token is a malformed token and the boundary answers 401. -/
theorem request_boundary_collapses_to_401_check :
    errorStatus .tokenMalformed = 401
    ∧ requireAuth (fun i => i % 2 == 0) ⟨[], []⟩ (some []) 0
        = .error ⟨401, "Unauthenticated"⟩ :=
  request_boundary_collapses_to_401 (fun i => i % 2 == 0) ⟨[], []⟩ [] 0
    .tokenMalformed (by rfl)

theorem revoke_idem (sessions : List Session) (j : Nat) :
    revoke (revoke sessions j) j = revoke sessions j := by
  simp [revoke, List.filter_filter]

/-- C6: `logout` always reports success, whether or not a matching session
row exists, and repeating it after the session row has been removed is not
an error: the second call also succeeds and leaves the store unchanged. -/
theorem logout_idempotent (secret : Nat → Bool) (st : ServerState)
    (t : List Bool) (now : Nat) :
    (logout secret st t now).2 = .success
    ∧ (∀ now2, (logout secret (logout secret st t now).1 t now2).2 = .success)
    ∧ logout secret (logout secret st t now).1 t now
        = ((logout secret st t now).1, .success) := by
  refine ⟨?_, ?_, ?_⟩
  · cases hv : verifyTok secret now t <;> simp [logout, hv]
  · intro now2
    cases hv : verifyTok secret now t <;>
      cases hv2 : verifyTok secret now2 t <;> simp [logout, hv, hv2]
  · cases hv : verifyTok secret now t with
    | error e => simp [logout, hv]
    | ok c => simp [logout, hv, revoke_idem]

/-- C7: `purge_expired` keeps a session row exactly when its expiry has not
passed (deleting exactly the rows with `expires_at < now`), touches no
kept row (the kept rows are a sublist of the originals), and the rows a
successful `login` just created survive a purge whose clock reading is no
later than the login's. -/
theorem purge_expired_exact_and_login_safe :
    (∀ (sessions : List Session) (now : Nat) (s : Session),
        s ∈ (purge_expired sessions now).1 ↔ s ∈ sessions ∧ now ≤ s.expiresAt)
  ∧ (∀ (sessions : List Session) (now : Nat),
        ((purge_expired sessions now).1).Sublist sessions)
  ∧ (∀ (secret : Nat → Bool) (st : ServerState)
        (provider : String → String → ProviderResult)
        (username password : String) (now accessJti refreshJti : Nat)
        (ip userAgent : String) (users2 : List User) (u : User),
        authenticate st.users provider username password now = .ok (users2, u) →
        (st.sessions.any fun x => x.jti == accessJti) = false →
        (st.sessions.any fun x => x.jti == refreshJti) = false →
        (accessJti == refreshJti) = false →
        ∀ tp, tp ≤ now →
          ∃ st2 resp,
            login secret st provider username password now accessJti refreshJti
                ip userAgent = .ok (st2, resp)
            ∧ (∃ sa ∈ (purge_expired st2.sessions tp).1, sa.jti = accessJti)
            ∧ (∃ sr ∈ (purge_expired st2.sessions tp).1, sr.jti = refreshJti)) := by
  refine ⟨?_, ?_, ?_⟩
  · intro sessions now s
    simp [purge_expired, List.mem_filter]
  · intro sessions now
    exact List.filter_sublist sessions
  · intro secret st provider username password now accessJti refreshJti ip
      userAgent users2 u hauth ha hr harr tp htp
    refine ⟨⟨recordLastLogin users2 u.id now,
        ⟨refreshJti, u.id, .refresh, now + refreshTtlSeconds, now, now, ip,
          userAgent⟩ ::
        ⟨accessJti, u.id, .access, now + accessTtlSeconds, now, now, ip,
          userAgent⟩ :: st.sessions⟩,
      { access_token := issue secret u.id accessJti .access accessTtlSeconds now,
        refresh_token := issue secret u.id refreshJti .refresh
          refreshTtlSeconds now,
        token_type := "bearer", expires_in := accessTtlSeconds, user := u },
      ?_, ?_, ?_⟩
    · simp only [login, hauth]
      simp [createSession, ha, hr, harr]
    · refine ⟨⟨accessJti, u.id, .access, now + accessTtlSeconds, now, now, ip,
        userAgent⟩, ?_, rfl⟩
      simp only [purge_expired]
      refine List.mem_filter.mpr ⟨?_, ?_⟩
      · exact List.mem_cons_of_mem _ (List.mem_cons_self _ _)
      · simp only [decide_eq_true_eq]
        omega
    · refine ⟨⟨refreshJti, u.id, .refresh, now + refreshTtlSeconds, now, now,
        ip, userAgent⟩, ?_, rfl⟩
      simp only [purge_expired]
      refine List.mem_filter.mpr ⟨?_, ?_⟩
      · exact List.mem_cons_self _ _
      · simp only [decide_eq_true_eq]
        omega

/-- Concrete instantiation of `purge_expired_exact_and_login_safe`: a purge
running at the login's timestamp keeps both freshly created session
rows. -/
theorem purge_expired_exact_and_login_safe_check :
    ∃ st2 resp,
      login (fun i => i % 2 == 0) initialState
          (fun _ _ => ProviderResult.timeout) "admin" "admin" 4 1 2 "ip" "ua"
        = .ok (st2, resp)
      ∧ (∃ sa ∈ (purge_expired st2.sessions 4).1, sa.jti = 1)
      ∧ (∃ sr ∈ (purge_expired st2.sessions 4).1, sr.jti = 2) :=
  purge_expired_exact_and_login_safe.2.2 (fun i => i % 2 == 0) initialState
    (fun _ _ => ProviderResult.timeout) "admin" "admin" 4 1 2 "ip" "ua"
    [adminUser] adminUser (by decide) (by decide) (by decide) (by decide) 4
    (by decide)

/-- C8: a successful login with username `admin` and password `admin`
returns both an access token and a refresh token together with
`expires_in = 1800` seconds — the configured 30-minute access-token
TTL. -/
theorem admin_login_token_pair (secret : Nat → Bool)
    (provider : String → String → ProviderResult)
    (now accessJti refreshJti : Nat) (ip userAgent : String)
    (hj : accessJti ≠ refreshJti) :
    ∃ st2 resp,
      login secret initialState provider "admin" "admin" now accessJti
          refreshJti ip userAgent = .ok (st2, resp)
      ∧ resp.expires_in = 1800
      ∧ resp.expires_in = accessTokenExpireMinutes * 60
      ∧ verifyTok secret now resp.access_token
          = .ok ⟨1, accessJti, .access, now, now + accessTtlSeconds⟩
      ∧ verifyTok secret now resp.refresh_token
          = .ok ⟨1, refreshJti, .refresh, now, now + refreshTtlSeconds⟩ := by
  have hauth : authenticate initialState.users provider "admin" "admin" now
      = .ok ([adminUser], adminUser) := by
    simp only [initialState, authenticate, findUserByName, adminUser]
    rfl
  have hjb : (accessJti == refreshJti) = false := beq_eq_false_iff_ne.mpr hj
  refine ⟨⟨recordLastLogin [adminUser] 1 now,
      [⟨refreshJti, 1, .refresh, now + refreshTtlSeconds, now, now, ip,
          userAgent⟩,
        ⟨accessJti, 1, .access, now + accessTtlSeconds, now, now, ip,
          userAgent⟩]⟩,
    { access_token := issue secret 1 accessJti .access accessTtlSeconds now,
      refresh_token := issue secret 1 refreshJti .refresh refreshTtlSeconds now,
      token_type := "bearer", expires_in := accessTtlSeconds,
      user := adminUser },
    ?_, rfl, rfl, ?_, ?_⟩
  · simp only [login, hauth]
    simp [createSession, initialState, hjb, adminUser]
  · exact verifyTok_signToken secret now
      ⟨1, accessJti, .access, now, now + accessTtlSeconds⟩ (by
        simp only [accessTtlSeconds, accessTokenExpireMinutes]
        omega)
  · exact verifyTok_signToken secret now
      ⟨1, refreshJti, .refresh, now, now + refreshTtlSeconds⟩ (by
        simp only [refreshTtlSeconds, refreshTokenExpireDays]
        omega)

/-- Concrete instantiation of `admin_login_token_pair` with distinct fresh
jtis. -/
theorem admin_login_token_pair_check :
    ∃ st2 resp,
      login (fun i => i % 2 == 0) initialState
          (fun _ _ => ProviderResult.timeout) "admin" "admin" 0 1 2 "ip" "ua"
        = .ok (st2, resp)
      ∧ resp.expires_in = 1800
      ∧ resp.expires_in = accessTokenExpireMinutes * 60
      ∧ verifyTok (fun i => i % 2 == 0) 0 resp.access_token
          = .ok ⟨1, 1, .access, 0, 0 + accessTtlSeconds⟩
      ∧ verifyTok (fun i => i % 2 == 0) 0 resp.refresh_token
          = .ok ⟨1, 2, .refresh, 0, 0 + refreshTtlSeconds⟩ :=
  admin_login_token_pair (fun i => i % 2 == 0)
    (fun _ _ => ProviderResult.timeout) 0 1 2 "ip" "ua" (by decide)

/-- C9: when the login POST fails, the client `login` returns
`success: false` with an error message and leaves the client
authentication state untouched: no `authToken` localStorage entry is
written and the token state, the user state, and the axios default
Authorization header all keep their prior values. -/
theorem client_login_failure_preserves_state (st : ClientState)
    (detail : Option String) :
    ((clientLogin st (.failure detail)).2.success = false)
    ∧ ((clientLogin st (.failure detail)).2.error
        = some (detail.getD "Login failed"))
    ∧ ((clientLogin st (.failure detail)).1.localStorageAuthToken
        = st.localStorageAuthToken)
    ∧ ((clientLogin st (.failure detail)).1.token = st.token)
    ∧ ((clientLogin st (.failure detail)).1.user = st.user)
    ∧ ((clientLogin st (.failure detail)).1.axiosAuthHeader
        = st.axiosAuthHeader) := by
  refine ⟨rfl, rfl, rfl, rfl, rfl, rfl⟩

/-- C10: when the refresh POST fails, the client `refreshToken` returns
`false` and the session is cleared via `logout`: the `authToken`
localStorage entry is removed, `token` and `user` are nulled, the axios
default Authorization header is deleted, and `isAuthenticated` becomes
`false`. -/
theorem client_refresh_failure_clears_session (st : ClientState)
    (detail : Option String) :
    ((clientRefreshToken st (.failure detail)).2 = false)
    ∧ ((clientRefreshToken st (.failure detail)).1 = clientLogout st)
    ∧ ((clientRefreshToken st (.failure detail)).1.localStorageAuthToken
        = none)
    ∧ ((clientRefreshToken st (.failure detail)).1.token = none)
    ∧ ((clientRefreshToken st (.failure detail)).1.user = none)
    ∧ ((clientRefreshToken st (.failure detail)).1.axiosAuthHeader = none)
    ∧ (isAuthenticated (clientRefreshToken st (.failure detail)).1 = false) := by
  refine ⟨rfl, rfl, rfl, rfl, rfl, rfl, rfl⟩
